import Mathlib

/-!
Verification development for the Word+Excel batch-replacement tool
(`src/app/main.py`).  The Python source is shallowly embedded below:
pure helper functions become Lean functions, the Streamlit session state
consumed by a function becomes an explicit argument, and code that can
raise becomes `Option`/`Except`-valued.  Machine floating point is
modelled exactly: a CPython `float` is a sign, a natural mantissa and a
binary exponent, and every conversion (decimal string to nearest double,
`repr`, fixed-point formatting) is implemented with exact integer
arithmetic, so the embedding is executable and the theorems evaluate.

Unicode-dependent Python primitives (`str.strip`, `re`'s `\s`, NFKC
normalization, `str.isdigit`) are modelled on the character repertoire the
program actually handles: ASCII, the CJK ideographs and bracket glyphs
used by the tool, the fullwidth ASCII block, and the special space
characters the source's regexes name explicitly.
-/

namespace WordExcel

/-- ASCII decimal digit test (Python's `str.isdigit`, `\d` and `Decimal`
digits, on the ASCII repertoire of this model). -/
def isDigitChar (c : Char) : Bool :=
  48 ≤ c.toNat && c.toNat ≤ 57

/-- Whitespace for Python's `str.strip` and for `\s` in a `str` regex,
restricted to the repertoire above: ASCII whitespace, NBSP, the en/em
space block, line/paragraph separators, narrow/medium spaces and the
ideographic space. -/
def isPySpace (c : Char) : Bool :=
  let n := c.toNat
  n = 32 || n = 9 || n = 10 || n = 13 || n = 11 || n = 12 ||
  n = 0x85 || n = 0xa0 || n = 0x1680 ||
  (0x2000 ≤ n && n ≤ 0x200a) ||
  n = 0x2028 || n = 0x2029 || n = 0x202f || n = 0x205f || n = 0x3000

/-- Python `str.strip()` (no argument): drop whitespace from both ends. -/
def pyStrip (s : String) : String :=
  String.mk (((s.data.dropWhile isPySpace).reverse.dropWhile isPySpace).reverse)

/-- Python `str.rstrip(c)` for a single-character argument: drop every
trailing occurrence of `c`. -/
def pyRstrip (s : String) (c : Char) : String :=
  String.mk ((s.data.reverse.dropWhile (· = c)).reverse)

/-- Python `str.isdigit()` on the ASCII repertoire: nonempty and all
characters are decimal digits. -/
def pyIsDigit (s : String) : Bool :=
  !s.data.isEmpty && s.data.all isDigitChar

/-- Python `str.lower()` restricted to ASCII case mapping. -/
def pyLower (s : String) : String :=
  String.mk (s.data.map Char.toLower)

/-- Substring test on character lists: does `sub` occur in `s`?
(Python's `sub in s`; the empty needle always matches.) -/
def containsSub : List Char → List Char → Bool
  | s, sub =>
    if sub.isPrefixOf s then true
    else match s with
      | [] => false
      | _ :: t => containsSub t sub

/-- Python's `sub in s` operator on strings. -/
def pyIn (sub s : String) : Bool :=
  containsSub s.data sub.data

/-- Worker for `str.replace`: replace non-overlapping occurrences of the
nonempty needle `old` left to right.  `fuel` bounds the recursion by the
input length; each step consumes at least one character. -/
def replaceAux (old new : List Char) : Nat → List Char → List Char
  | _, [] => []
  | 0, s => s
  | fuel + 1, c :: t =>
    if old.isPrefixOf (c :: t) then
      new ++ replaceAux old new fuel ((c :: t).drop old.length)
    else
      c :: replaceAux old new fuel t

/-- Python `s.replace(old, new)`: all non-overlapping occurrences, left to
right; an empty needle inserts `new` at every boundary. -/
def pyReplace (s old new : String) : String :=
  if old.data.isEmpty then
    String.mk (new.data ++ s.data.flatMap (fun c => c :: new.data))
  else
    String.mk (replaceAux old.data new.data s.data.length s.data)

/-- Python `s.startswith(p)`. -/
def pyStartsWith (s p : String) : Bool :=
  p.data.isPrefixOf s.data

/-- Python `s.endswith(p)`. -/
def pyEndsWith (s p : String) : Bool :=
  p.data.isSuffixOf s.data

/-- Unicode NFKC normalization (`unicodedata.normalize("NFKC", ·)`)
restricted to the repertoire this program exercises: the fullwidth ASCII
block U+FF01–U+FF5E decomposes to ASCII, the compatibility space
characters (NBSP, U+2000–U+200A, narrow/medium/ideographic spaces)
decompose to an ASCII space, and every other character handled here
(ASCII, CJK ideographs, the bracket glyphs 【】〔〕, ZWSP) is NFKC-stable. -/
def nfkcChar (c : Char) : Char :=
  let n := c.toNat
  if 0xff01 ≤ n && n ≤ 0xff5e then Char.ofNat (n - 0xff01 + 0x21)
  else if n = 0xa0 || (0x2000 ≤ n && n ≤ 0x200a) ||
          n = 0x202f || n = 0x205f || n = 0x3000 then ' '
  else c

/-- Collapse maximal runs of `\s` characters to one ASCII space
(`re.sub(r'\s+', ' ', text)`).  The flag records whether the previous
character was part of a whitespace run. -/
def collapseSpacesAux : Bool → List Char → List Char
  | _, [] => []
  | prevSp, c :: cs =>
    if isPySpace c then
      if prevSp then collapseSpacesAux true cs
      else ' ' :: collapseSpacesAux true cs
    else c :: collapseSpacesAux false cs

/-- Character class of `re.sub(r'[  -​]', ' ', text)`. -/
def isSpecialSpace (c : Char) : Bool :=
  c.toNat = 0xa0 || (0x2002 ≤ c.toNat && c.toNat ≤ 0x200b)

/-- `clean_text` from `src/app/main.py`: strip, NFKC-normalize, replace the
special space class by an ASCII space, collapse whitespace runs. -/
def clean_text (text : String) : String :=
  let t1 := pyStrip text
  let t2 := t1.data.map nfkcChar
  let t3 := t2.map (fun c => if isSpecialSpace c then ' ' else c)
  String.mk (collapseSpacesAux false t3)

/-- `clean_filename` from `src/app/main.py`: replace each of the illegal
filename characters by an underscore. -/
def clean_filename (filename : String) : String :=
  String.mk (filename.data.map (fun c =>
    if c = '\\' || c = '/' || c = ':' || c = '*' || c = '?' ||
       c = '"' || c = '<' || c = '>' || c = '|' then '_' else c))

/-- The `replace_scope` session value: the radio button offers exactly the
two options "替换完整关键词" (full keyword) and "仅替换括号内内容"
(bracket content only). -/
inductive ReplaceScope
  | full
  | bracketOnly
  deriving DecidableEq, Repr

/-- A pandas row (`excel_df.iloc[idx]`) as an ordered column→value map;
all values are strings because the sheet is read with `dtype=str`. -/
abbrev Row := List (String × String)

/-- Label lookup `excel_row[col]`; `none` models the `KeyError` a missing
column raises. -/
def rowLookup (row : Row) (col : String) : Option String :=
  (row.find? (fun p => p.1 = col)).map (·.2)

/-- One element of the list `precompute_replace_patterns` returns: the
tuple `(old_text, col_name, cleaned_text, replacement)`. -/
structure CompiledPattern where
  old : String
  col : String
  searchKey : String
  repl : String
  deriving DecidableEq, Repr

/-- `precompute_replace_patterns` from `src/app/main.py`.  The session's
`replace_scope` is passed explicitly; reading a missing column raises
`KeyError`, modelled as `Except.error` naming the column. -/
def precompute_replace_patterns (scope : ReplaceScope) :
    List (String × String) → Row → Except String (List CompiledPattern)
  | [], _ => .ok []
  | (old_text, col_name) :: rest, row =>
    match rowLookup row col_name with
    | none => .error col_name
    | some replacement =>
      let cleaned := clean_text old_text
      let pat : CompiledPattern :=
        match scope with
        | .bracketOnly =>
          if pyStartsWith cleaned "【" && pyEndsWith cleaned "】" then
            ⟨old_text, col_name, cleaned, "【" ++ replacement ++ "】"⟩
          else if pyStartsWith cleaned "（" && pyEndsWith cleaned "）" then
            ⟨old_text, col_name, cleaned, "（" ++ replacement ++ "）"⟩
          else if pyStartsWith cleaned "(" && pyEndsWith cleaned ")" then
            ⟨old_text, col_name, cleaned, "(" ++ replacement ++ ")"⟩
          else if pyStartsWith cleaned "〔" && pyEndsWith cleaned "〕" then
            ⟨old_text, col_name, cleaned, "〔" ++ replacement ++ "〕"⟩
          else
            ⟨old_text, col_name, cleaned, replacement⟩
        | .full => ⟨old_text, col_name, cleaned, replacement⟩
      match precompute_replace_patterns scope rest row with
      | .error e => .error e
      | .ok pats => .ok (pat :: pats)

/-- A python-docx run: its text plus opaque formatting attributes, which
the engine never inspects (modelled by an abstract tag). -/
structure Run where
  text : String
  style : Nat
  deriving DecidableEq, Repr

/-- `paragraph.text` in python-docx: the concatenation of run texts. -/
def para_text (runs : List Run) : String :=
  runs.foldl (fun acc r => acc ++ r.text) ""

/-- Replacement counts in insertion order, as a `defaultdict(int)` whose
iteration order is first-insertion order. -/
abbrev Counts := List ((String × String) × Nat)

/-- Add `n` to the count of `k`, inserting at the end on first use. -/
def bumpCount (m : Counts) (k : String × String) (n : Nat) : Counts :=
  match m with
  | [] => [(k, n)]
  | (k', c) :: rest =>
    if k' = k then (k', c + n) :: rest else (k', c) :: bumpCount rest k n

/-- `process_paragraph` from `src/app/main.py` (the optional pre-cleaned
text argument is always defaulted by the callers): returns the mutated run
list and the per-paragraph replacement counts. -/
def process_paragraph (runs : List Run) (pats : List CompiledPattern) :
    List Run × Counts :=
  let ptext := para_text runs
  let cleaned_para := clean_text ptext
  let has_keyword := pats.any (fun p => pyIn p.searchKey cleaned_para)
  if has_keyword then
    let step := pats.foldl
      (fun (acc : String × Counts) p =>
        if pyIn p.searchKey cleaned_para then
          (pyReplace acc.1 p.searchKey p.repl, bumpCount acc.2 (p.old, p.col) 1)
        else acc)
      (ptext, [])
    match runs with
    | [] => ([], step.2)
    | r :: rs =>
      ({ r with text := step.1 } :: rs.map (fun q => { q with text := "" }), step.2)
  else (runs, [])

/-- A parsed `.docx` document as python-docx exposes it to this program:
top-level paragraphs plus tables, where a table is rows of cells and a
cell holds paragraphs.  (Nested tables are out of scope.) -/
structure DocumentTree where
  paragraphs : List (List Run)
  tables : List (List (List (List (List Run))))
  deriving DecidableEq, Repr

/-- Merge one paragraph's counts into the running document totals
(`replace_count[key] += count`). -/
def mergeCounts (total : Counts) (para : Counts) : Counts :=
  para.foldl (fun acc kv => bumpCount acc kv.1 kv.2) total

/-- Process a list of paragraphs, threading the count totals. -/
def processParagraphList (pats : List CompiledPattern) :
    List (List Run) → Counts → List (List Run) × Counts
  | [], total => ([], total)
  | p :: ps, total =>
    let r := process_paragraph p pats
    let rest := processParagraphList pats ps (mergeCounts total r.2)
    (r.1 :: rest.1, rest.2)

/-- Process every paragraph of every cell of every row of a table. -/
def processTable (pats : List CompiledPattern) :
    List (List (List (List Run))) → Counts →
    List (List (List (List Run))) × Counts
  | [], total => ([], total)
  | row :: rows, total =>
    let doCell := fun (acc : List (List (List Run)) × Counts)
        (cell : List (List Run)) =>
      let r := processParagraphList pats cell acc.2
      (acc.1 ++ [r.1], r.2)
    let rowRes := row.foldl doCell ([], total)
    let rest := processTable pats rows rowRes.2
    (rowRes.1 :: rest.1, rest.2)

/-- Process all tables of a document. -/
def processTables (pats : List CompiledPattern) :
    List (List (List (List (List Run)))) → Counts →
    List (List (List (List (List Run)))) × Counts
  | [], total => ([], total)
  | t :: ts, total =>
    let r := processTable pats t total
    let rest := processTables pats ts r.2
    (r.1 :: rest.1, rest.2)

/-- The success log of `replace_word_with_format`: one line per counted
rule, "替换成功: old -> value (count次)", joined by newlines; the value is
re-read from the row by column name. -/
def successLog (row : Row) (counts : Counts) : String :=
  if counts.isEmpty then "未找到需要替换的关键字"
  else
    String.intercalate "\n" (counts.map (fun kv =>
      "替换成功: " ++ kv.1.1 ++ " -> " ++ (rowLookup row kv.1.2).getD "" ++
      " (" ++ toString kv.2 ++ "次)"))

/-- `replace_word_with_format` from `src/app/main.py`.  The uploaded file
is modelled by its parsed `DocumentTree` (each call re-parses the same
bytes, hence receives an identical fresh tree).  The returned payload is
`some` mutated tree on success; the `except` branch returns an empty
`BytesIO`, modelled as `none`, with an error log (the appended traceback
text is environment noise and is not modelled). -/
def replace_word_with_format (doc : DocumentTree) (excel_row : Row)
    (replace_rules : List (String × String)) (scope : ReplaceScope) :
    Option DocumentTree × String :=
  match precompute_replace_patterns scope replace_rules excel_row with
  | .error col => (none, "替换失败: " ++ "'" ++ col ++ "'")
  | .ok pats =>
    let paras := processParagraphList pats doc.paragraphs []
    let tabs := processTables pats doc.tables paras.2
    (some ⟨paras.1, tabs.1⟩, successLog excel_row tabs.2)

/-- The `ReplacedFile` dataclass: output filename, file payload, source
row index (0-based) and the per-row log. -/
structure ReplacedFile where
  filename : String
  data : Option DocumentTree
  row_idx : Nat
  log : String
  deriving DecidableEq, Repr

/-- Python `range(a, b)`. -/
def pyRange (a b : Nat) : List Nat :=
  List.range' a (b - a)

/-- Filename construction from the `replace_btn` handler: the
prefix/suffix chain, falling back to "替换结果_&lt;row+1&gt;" when the naming
column is unset or absent, then `clean_filename`. -/
def buildFilename (excel_row : Row) (row_idx : Nat)
    (file_name_col pre suf : String) : String :=
  let base :=
    if file_name_col ≠ "" ∧ (rowLookup excel_row file_name_col).isSome then
      clean_text ((rowLookup excel_row file_name_col).getD "")
    else
      "替换结果_" ++ toString (row_idx + 1)
  let name :=
    if pre ≠ "" ∧ suf ≠ "" then pre ++ base ++ suf ++ ".docx"
    else if pre ≠ "" then pre ++ base ++ ".docx"
    else if suf ≠ "" then base ++ suf ++ ".docx"
    else base ++ ".docx"
  clean_filename name

/-- The row loop of the `replace_btn` handler: for each index in
`range(start_row - 1, min(end_row, len(excel_df)))`, run the replacement
and append a `ReplacedFile`. -/
def runBatch (doc : DocumentTree) (excel_df : List Row)
    (replace_rules : List (String × String)) (scope : ReplaceScope)
    (start_row end_row : Nat) (file_name_col pre suf : String) :
    List ReplacedFile :=
  (pyRange (start_row - 1) (min end_row excel_df.length)).map
    (fun row_idx =>
      let excel_row := excel_df.getD row_idx []
      let res := replace_word_with_format doc excel_row replace_rules scope
      { filename := buildFilename excel_row row_idx file_name_col pre suf
        data := res.1
        row_idx := row_idx
        log := res.2 })

/-- The dictionary `get_replace_params` returns, with one field per key. -/
structure ReplaceParams where
  word_filename : String
  excel_rows : Nat
  start_row : Nat
  end_row : Nat
  file_name_col : String
  file_pre : String
  file_suf : String
  rule_count : Nat
  rule_hash : Nat
  deriving DecidableEq, Repr

/-- Deterministic stand-in for CPython's in-process `hash(tuple(rules))`:
the program only ever compares fingerprints for equality inside one
session, so any fixed function of the rule list is a faithful model. -/
def rulesHash (rules : List (String × String)) : Nat :=
  rules.foldl
    (fun h kv =>
      let sh := fun (s : String) (a : Nat) =>
        s.data.foldl (fun x c => x * 31 + c.toNat + 1) a
      sh kv.2 (sh kv.1 (h * 1000003 + 7)))
    5381

/-- The Streamlit session state consumed by the replacement engine. -/
structure SessionState where
  replace_rules : List (String × String)
  replace_scope : ReplaceScope
  deriving Repr

/-- `get_replace_params` from `src/app/main.py`: the re-run fingerprint.
It reads `session.replace_rules` (count and hash) but nothing else from
the session. -/
def get_replace_params (session : SessionState) (word_file : Option String)
    (excel_df : Option (List Row)) (start_row end_row : Nat)
    (file_name_col pre suf : String) : ReplaceParams :=
  { word_filename := word_file.getD ""
    excel_rows := (excel_df.map List.length).getD 0
    start_row := start_row
    end_row := end_row
    file_name_col := file_name_col
    file_pre := pre
    file_suf := suf
    rule_count := session.replace_rules.length
    rule_hash := rulesHash session.replace_rules }

/-- The `need_replace` condition: no cached artifacts, or the stored
params (initially the empty dict, modelled `none`) differ from the
current fingerprint. -/
def needReplace (replaced_files : List ReplacedFile)
    (stored : Option ReplaceParams) (current : ReplaceParams) : Bool :=
  (replaced_files.length == 0) || !(stored == some current)

/-!
Exact model of CPython's binary64 floating point, as far as
`fix_float_precision` exercises it: conversion from a decimal literal to
the nearest double (round half to even), `repr`'s shortest round-tripping
decimal form, fixed-point `format(f, '.pf')`, exact comparison, and one
subtraction.  A finite double is a sign, a mantissa below 2^53 and a
binary exponent; every algorithm below works on exact integers.
-/

/-- A CPython `float`: ±mantissa·2^exponent, or an infinity.  Finite
values are kept normalized (mantissa in [2^52, 2^53), or exponent -1074
for subnormals, or mantissa 0 with exponent 0 for signed zero), so
structural equality is value-plus-sign equality. -/
inductive PyFloat
  | finite (neg : Bool) (m : Nat) (e : Int)
  | inf (neg : Bool)
  deriving DecidableEq, Repr

/-- Number of binary digits of `n` (0 for 0); fuel-bounded structural
recursion so the kernel can evaluate it. -/
def bitLenAux : Nat → Nat → Nat
  | 0, _ => 0
  | f + 1, n => if n = 0 then 0 else bitLenAux f (n / 2) + 1

/-- Binary digit count in 64-bit chunks, keeping the evaluation depth
shallow for the multi-thousand-bit quantities this model produces. -/
def bitLenBigAux : Nat → Nat → Nat
  | 0, n => bitLenAux 64 n
  | f + 1, n =>
    if n < 18446744073709551616 then bitLenAux 64 n
    else bitLenBigAux f (n >>> 64) + 64

/-- Binary digit count, ample for mantissas scaled by 2^2100·10^330. -/
def bitLen (n : Nat) : Nat := bitLenBigAux 80 n

/-- Number of decimal digits of `n` (0 for 0), small-range worker. -/
def digLenAux : Nat → Nat → Nat
  | 0, _ => 0
  | f + 1, n => if n = 0 then 0 else digLenAux f (n / 10) + 1

/-- Decimal digit count in 19-digit chunks. -/
def digLenBigAux : Nat → Nat → Nat
  | 0, n => digLenAux 25 n
  | f + 1, n =>
    if n < 10000000000000000000 then digLenAux 25 n
    else digLenBigAux f (n / 10000000000000000000) + 19

/-- Decimal digit count with ample fuel. -/
def digLen (n : Nat) : Nat := digLenBigAux 80 n

/-- Round `a / b` (with `b > 0`) to the nearest integer, ties to even. -/
def rhe (a b : Nat) : Nat :=
  let q := a / b
  let r := a % b
  if 2 * r < b then q
  else if 2 * r > b then q + 1
  else if q % 2 = 0 then q else q + 1

/-- Is `num / den ≥ 2^k` (for a signed `k`)? -/
def ratGePow2 (num den : Nat) (k : Int) : Bool :=
  if k ≥ 0 then num ≥ den * 2 ^ k.toNat else num * 2 ^ (-k).toNat ≥ den

/-- Is `num / den ≥ 10^k` (for a signed `k`)? -/
def ratGePow10 (num den : Nat) (k : Int) : Bool :=
  if k ≥ 0 then num ≥ den * 10 ^ k.toNat else num * 10 ^ (-k).toNat ≥ den

/-- Round the positive rational `num / den` to the nearest binary64
(round half to even): `none` is overflow (an `OverflowError` or an
infinity, per caller), `some (0, 0)` underflow to zero, otherwise the
normalized mantissa/exponent pair. -/
def ratToFloatCore (num den : Nat) : Option (Nat × Int) :=
  if num = 0 then some (0, 0)
  else
    let t0 : Int := (bitLen num : Int) - bitLen den
    let t : Int := if ratGePow2 num den t0 then t0 else t0 - 1
    let e : Int := max (t - 52) (-1074)
    let a := if e ≥ 0 then num else num * 2 ^ (-e).toNat
    let b := if e ≥ 0 then den * 2 ^ e.toNat else den
    let m := rhe a b
    if m = 0 then some (0, 0)
    else
      let me := if m = 2 ^ 53 then (2 ^ 52, e + 1) else (m, e)
      if me.2 > 971 then none else some me

/-- Nearest binary64 to `±num/den`; `none` when the magnitude exceeds the
largest finite double (every caller saturates to infinity). -/
def ratToFloat (neg : Bool) (num den : Nat) : Option PyFloat :=
  (ratToFloatCore num den).map (fun me => .finite neg me.1 me.2)

/-- Nearest binary64 to `±num/den`, saturating to infinity — the
behaviour of CPython float conversion from text. -/
def ratToFloatSat (neg : Bool) (num den : Nat) : PyFloat :=
  (ratToFloat neg num den).getD (.inf neg)

/-- An exact decimal value as CPython's `Decimal` stores the strings this
program parses: sign, coefficient, and the count of fractional digits
(the negated exponent). -/
structure Dec where
  neg : Bool
  coeff : Nat
  scale : Nat
  deriving DecidableEq, Repr

/-- `float(dec)` and `float(<string>)`: CPython converts a `Decimal` to a
double through the string path, which saturates to ±infinity for
out-of-range magnitudes instead of raising. -/
def decToFloatSat (d : Dec) : PyFloat :=
  ratToFloatSat d.neg d.coeff (10 ^ d.scale)

/-- The double denoted by the source literal `1e-9`. -/
def oneE9 : PyFloat := ratToFloatSat false 1 1000000000

/-- Magnitude comparison `m1·2^e1 < m2·2^e2` on exact values. -/
def magLt (m1 : Nat) (e1 : Int) (m2 : Nat) (e2 : Int) : Bool :=
  if e1 ≤ e2 then m1 < m2 * 2 ^ (e2 - e1).toNat
  else m1 * 2 ^ (e1 - e2).toNat < m2

/-- Exact `<` on doubles (Python float comparison; both zeros equal). -/
def floatLt : PyFloat → PyFloat → Bool
  | .inf n1, .inf n2 => n1 && !n2
  | .inf n1, .finite _ _ _ => n1
  | .finite _ _ _, .inf n2 => !n2
  | .finite n1 m1 e1, .finite n2 m2 e2 =>
    let s1 : Int := if m1 = 0 then 0 else if n1 then -1 else 1
    let s2 : Int := if m2 = 0 then 0 else if n2 then -1 else 1
    if s1 < s2 then true
    else if s2 < s1 then false
    else if s1 = 0 then false
    else if s1 = 1 then magLt m1 e1 m2 e2
    else magLt m2 e2 m1 e1

/-- Absolute value of a double. -/
def floatAbs : PyFloat → PyFloat
  | .finite _ m e => .finite false m e
  | .inf _ => .inf false

/-- Round the signed dyadic `±num·2^e` to a double, saturating. -/
def dyadicToFloatSat (neg : Bool) (num : Nat) (e : Int) : PyFloat :=
  if e ≥ 0 then ratToFloatSat neg (num * 2 ^ e.toNat) 1
  else ratToFloatSat neg num (2 ^ (-e).toNat)

/-- IEEE double subtraction (round to nearest even); an exact zero result
is returned as +0, which is all the magnitude comparisons here observe. -/
def floatSub : PyFloat → PyFloat → PyFloat
  | .inf n1, _ => .inf n1
  | .finite _ _ _, .inf n2 => .inf (!n2)
  | .finite n1 m1 e1, .finite n2 m2 e2 =>
    let e := min e1 e2
    let a1 : Int := (if n1 then -(m1 : Int) else m1) * 2 ^ (e1 - e).toNat
    let a2 : Int := (if n2 then -(m2 : Int) else m2) * 2 ^ (e2 - e).toNat
    let d := a1 - a2
    if d = 0 then .finite false 0 0
    else dyadicToFloatSat (d < 0) d.natAbs e

/-- Decimal digit character. -/
def digitChar (n : Nat) : Char := Char.ofNat (48 + n % 10)

/-- Decimal digit list of `n` (most significant first; empty for 0),
fuel-bounded for kernel evaluation. -/
def natDigitsAux : Nat → Nat → List Char
  | 0, _ => []
  | f + 1, n =>
    if n = 0 then []
    else natDigitsAux f (n / 10) ++ [digitChar (n % 10)]

/-- Python's decimal rendering of a natural number. -/
def natDigits (n : Nat) : List Char :=
  if n = 0 then ['0'] else natDigitsAux 8000 n

/-- `n` rendered to exactly `p` digits, zero-padded on the left. -/
def padDigits (p n : Nat) : List Char :=
  let ds := if n = 0 then [] else natDigitsAux 8000 n
  List.replicate (p - ds.length) '0' ++ ds

/-- Round `m·2^e > 0` to `p` significant decimal digits (ties to even):
returns the digit block `D ∈ [10^(p-1), 10^p)` and the decimal exponent
`E` with the value approximated by `D·10^(E-p)`. -/
def sigRound (m : Nat) (e : Int) (p : Nat) : Nat × Int :=
  let num := if e ≥ 0 then m * 2 ^ e.toNat else m
  let den := if e ≥ 0 then 1 else 2 ^ (-e).toNat
  let e0 : Int := (digLen num : Int) - digLen den
  let ee : Int := if ratGePow10 num den e0 then e0 + 1 else e0
  let k : Int := p - ee
  let a := if k ≥ 0 then num * 10 ^ k.toNat else num
  let b := if k ≥ 0 then den else den * 10 ^ (-k).toNat
  let dd := rhe a b
  if dd = 10 ^ p then (10 ^ (p - 1), ee + 1) else (dd, ee)

/-- Does the decimal `D·10^(ee-p)` round back to exactly the double
`m·2^e`? -/
def reprRoundTrip (dd : Nat) (ee : Int) (p : Nat) (m : Nat) (e : Int) : Bool :=
  let k : Int := ee - p
  let num := if k ≥ 0 then dd * 10 ^ k.toNat else dd
  let den := if k ≥ 0 then 1 else 10 ^ (-k).toNat
  ratToFloatCore num den == some (m, e)

/-- Render the shortest digits `D` (with `p` digits and leading decimal
exponent `ee`) the way CPython's `repr` lays a float out: positional
notation when the exponent of the leading digit is in [-4, 16), otherwise
scientific notation with a signed, two-digit-minimum exponent. -/
def reprLayout (neg : Bool) (dd : Nat) (p : Nat) (ee : Int) : String :=
  let ds := natDigits dd
  let sgn := if neg then "-" else ""
  let exp10 : Int := ee - 1
  if -4 ≤ exp10 && exp10 < 16 then
    if ee ≥ (p : Int) then
      sgn ++ String.mk (ds ++ List.replicate (ee - p).toNat '0') ++ ".0"
    else if 0 < ee then
      sgn ++ String.mk (ds.take ee.toNat) ++ "." ++ String.mk (ds.drop ee.toNat)
    else
      sgn ++ "0." ++ String.mk (List.replicate (-ee).toNat '0' ++ ds)
  else
    let head := String.mk (ds.take 1)
    let tail := if p ≥ 2 then "." ++ String.mk (ds.drop 1) else ""
    let esgn := if exp10 < 0 then "-" else "+"
    let eabs := exp10.natAbs
    let edigits := padDigits (max 2 (digLen eabs)) eabs
    sgn ++ head ++ tail ++ "e" ++ esgn ++ String.mk edigits

/-- Search the shortest significant-digit count whose rounding
round-trips (CPython `repr` semantics; 17 digits always round-trip). -/
def reprSearch (neg : Bool) (m : Nat) (e : Int) : Nat → Nat → String
  | 0, _ => ""
  | f + 1, p =>
    let de := sigRound m e p
    if p ≥ 17 || reprRoundTrip de.1 de.2 p m e then
      reprLayout neg de.1 p de.2
    else reprSearch neg m e f (p + 1)

/-- `str(f)` / `repr(f)` for a CPython float. -/
def floatRepr : PyFloat → String
  | .inf neg => if neg then "-inf" else "inf"
  | .finite neg 0 _ => if neg then "-0.0" else "0.0"
  | .finite neg m e => reprSearch neg m e 17 1

/-- `format(f, '.pf')`: fixed-point rendering at `p` fractional digits,
correctly rounded (ties to even), sign preserved for negative zero. -/
def formatFloatFixed (f : PyFloat) (p : Nat) : String :=
  match f with
  | .inf neg => if neg then "-inf" else "inf"
  | .finite neg m e =>
    let num := (if e ≥ 0 then m * 2 ^ e.toNat else m) * 10 ^ p
    let den := if e ≥ 0 then 1 else 2 ^ (-e).toNat
    let dd := rhe num den
    let ip := dd / 10 ^ p
    let fp := dd % 10 ^ p
    (if neg then "-" else "") ++ String.mk (natDigits ip) ++
      (if p = 0 then "" else "." ++ String.mk (padDigits p fp))

/-- Numeric value of an ASCII digit list. -/
def parseDigits : List Char → Nat → Nat
  | [], acc => acc
  | c :: cs, acc => parseDigits cs (acc * 10 + (c.toNat - 48))

/-- Match the source's float pattern `^\s*[-+]?\d*\.?\d+\s*$` and, on
success, give the exact `Decimal` the matched text denotes (the program
constructs `Decimal(x)` only after this regex accepts `x`, and
`Decimal` accepts every string the pattern does). -/
def matchFloat (s : String) : Option Dec :=
  let l := s.data.dropWhile isPySpace
  let sgn : Bool × List Char :=
    match l with
    | '-' :: t => (true, t)
    | '+' :: t => (false, t)
    | _ => (false, l)
  let ds1 := sgn.2.takeWhile isDigitChar
  let l1 := sgn.2.dropWhile isDigitChar
  match l1 with
  | '.' :: t =>
    let ds2 := t.takeWhile isDigitChar
    let l2 := t.dropWhile isDigitChar
    if ds2.isEmpty then none
    else if (l2.dropWhile isPySpace).isEmpty then
      some ⟨sgn.1, parseDigits (ds1 ++ ds2) 0, ds2.length⟩
    else none
  | rest =>
    if ds1.isEmpty then none
    else if (rest.dropWhile isPySpace).isEmpty then
      some ⟨sgn.1, parseDigits ds1 0, 0⟩
    else none

/-- `dec.quantize(Decimal('1.' + '0'*p), rounding=ROUND_HALF_UP)` under
the default context (precision 28): round to `p` fractional digits, ties
away from zero, sign (hence negative zero) preserved; when the result
coefficient would exceed 28 digits, CPython signals `InvalidOperation`,
modelled as `none` — the try block's one genuine exception source. -/
def quantizeDec (d : Dec) (p : Nat) : Option Dec :=
  let c :=
    if d.scale ≤ p then d.coeff * 10 ^ (p - d.scale)
    else
      let den := 10 ^ (d.scale - p)
      let q := d.coeff / den
      let r := d.coeff % den
      if den ≤ 2 * r then q + 1 else q
  if 28 < digLen c then none else some ⟨d.neg, c, p⟩

/-- `format(dec, '.pf')` for a `Decimal` whose scale is at most `p` (at
every call site the value was just quantized to scale `p`): exact
rendering, sign preserved for negative zero. -/
def formatDecFixed (d : Dec) (p : Nat) : String :=
  let c := d.coeff * 10 ^ (p - d.scale)
  (if d.neg then "-" else "") ++ String.mk (natDigits (c / 10 ^ p)) ++
    (if p = 0 then "" else "." ++ String.mk (padDigits p (c % 10 ^ p)))

/-- `str(int(dec))` for a `Decimal` with nonnegative exponent: truncation
is exact and `int` drops the sign of zero. -/
def decIntStr (d : Dec) : String :=
  if d.coeff = 0 then "0"
  else (if d.neg then "-" else "") ++ String.mk (natDigits d.coeff)

/-- The aggregate-column test: `column_name and ("合计" in column_name or
"total" in column_name.lower())`. -/
def isAggregate : Option String → Bool
  | none => false
  | some c => !c.data.isEmpty && (pyIn "合计" c || pyIn "total" (pyLower c))

/-- `abs(a - b) < 1e-9` where both sides are `Decimal`s and `1e-9` is the
binary double of the literal: both exact. -/
def ltAbsDecDiffOneE9 (a b : Dec) : Bool :=
  let s := max a.scale b.scale
  let va : Int := (if a.neg then -(a.coeff : Int) else a.coeff) * 10 ^ (s - a.scale)
  let vb : Int := (if b.neg then -(b.coeff : Int) else b.coeff) * 10 ^ (s - b.scale)
  match oneE9 with
  | .finite _ m9 e9 => (va - vb).natAbs * 2 ^ (-e9).toNat < m9 * 10 ^ s
  | .inf _ => false

/-- The trailing-zero trimming idiom `r.rstrip('0').rstrip('.') if '.'
in r else r`. -/
def trimZerosDot (r : String) : String :=
  if pyIn "." r then pyRstrip (pyRstrip r '0') '.' else r

/-- The fractional part of the original string: `x.split('.')[1]` (the
caller guards `'.' in x`; the matched text has at most one dot). -/
def fracPartStr (x : String) : String :=
  String.mk ((x.data.dropWhile (· ≠ '.')).drop 1)

/-- The aggregate-column loop `for dec_places in range(2, 7)`: quantize
half-up and accept the first width whose error is below `1e-9`.
`some (some r)` is an accepted result, `some none` an exhausted loop
(control falls through), `none` a quantize `InvalidOperation`. -/
def aggSearch (dec : Dec) : Nat → Nat → Option (Option String)
  | 0, _ => some none
  | f + 1, p =>
    if 7 ≤ p then some none
    else
      match quantizeDec dec p with
      | none => none
      | some quantized =>
        if ltAbsDecDiffOneE9 quantized dec then
          some (some (trimZerosDot (formatDecFixed quantized p)))
        else aggSearch dec f (p + 1)

/-- Recovery method 2, `for dec_places in range(1, 10)`: format the float
at each width and accept the first that reparses to within `1e-9` of it
(a float comparison on a float difference). -/
def method2 (fv : PyFloat) : Nat → Nat → Option String
  | 0, _ => none
  | f + 1, p =>
    if 10 ≤ p then none
    else
      let formatted := formatFloatFixed fv p
      let back :=
        match matchFloat formatted with
        | some d => decToFloatSat d
        | none => .inf false
      if floatLt (floatAbs (floatSub back fv)) oneE9 then
        some (trimZerosDot formatted)
      else method2 fv f (p + 1)

/-- The artifact-signature region of `fix_float_precision` (lines
409–433): if the float's repr shows a run of six nines or six zeros,
try method 1 (re-quantize to the significant fractional digits of the
original input) then method 2; otherwise, and when method 2 finds
nothing, return the input unchanged.  `none` propagates the
`InvalidOperation` of method 1's quantize to the except clause. -/
def afterAggregate (x : String) (dec : Dec) (fv : PyFloat) (fs : String) :
    Option String :=
  if pyIn "999999" fs || pyIn "000000" fs then
    let odp := (pyRstrip (fracPartStr x) '0').length
    if pyIn "." x && decide (0 < odp) then
      match quantizeDec dec odp with
      | none => none
      | some q => some (trimZerosDot (formatDecFixed q odp))
    else
      match method2 fv 9 1 with
      | some r => some r
      | none => some x
  else some x

/-- The `try` block of `fix_float_precision` after a successful
`Decimal(x)`: `none` models the one exception that can still occur — the
`InvalidOperation` a `quantize` signals past the 28-digit context
precision — which the `except` clause handles.  `float(dec)` never
raises; it saturates to infinity. -/
def decTryBlock (x : String) (column_name : Option String) (dec : Dec) :
    Option String :=
  if dec.scale = 0 then some (decIntStr dec)
  else
    let fv := decToFloatSat dec
    let fs := floatRepr fv
    if isAggregate column_name then
      match aggSearch dec 5 2 with
      | none => none
      | some (some r) => some r
      | some none => afterAggregate x dec fv fs
    else afterAggregate x dec fv fs

/-- `fix_float_precision` from `src/app/main.py` (string inputs; the
non-string early return is outside a string-typed embedding). -/
def fix_float_precision (x : String) (column_name : Option String) : String :=
  if x.isEmpty then x
  else
    let xs := pyStrip x
    if xs.isEmpty then ""
    else if pyIsDigit xs then xs
    else
      match matchFloat xs with
      | none => xs
      | some dec =>
        match decTryBlock xs column_name dec with
        | some r => r
        | none =>
          match matchFloat xs with
          | some d => trimZerosDot (formatFloatFixed (decToFloatSat d) 6)
          | none => xs

/-! ## Concrete fixtures used by witnesses and counterexamples -/

/-- A two-column data row. -/
def demoRow : Row := [("姓名", "张三"), ("金额", "10.5")]

/-- A one-paragraph template document. -/
def demoDoc : DocumentTree := ⟨[[⟨"姓名：", 0⟩, ⟨"【姓名】", 1⟩]], []⟩

/-!  ## Claims -/

/-- C1: the specification (and the function's own docstring, which reads
"将0.48729999999999996转换为0.4873") promises
`normalize("0.48729999999999996", None) = "0.4873"`.  The code disagrees:
its recovery method 1 re-quantizes the exact value to the significant
fractional digit count of the original input — 17 digits — which changes
nothing, so the function returns the artifact string unchanged. -/
theorem c1_normalize_precision_example :
    fix_float_precision "0.48729999999999996" none = "0.48729999999999996" := by
  decide

/-- C2 counterexample: two batch configurations that are identical except
for the scope mode (full keyword vs bracket-content-only) produce equal
replace-params fingerprints, refuting the claim that such fingerprints
always differ. -/
theorem c2_scope_shared_fingerprint :
    ReplaceScope.full ≠ ReplaceScope.bracketOnly ∧
    get_replace_params ⟨[("【姓名】", "姓名")], ReplaceScope.full⟩
        (some "模板.docx") (some [demoRow]) 1 1 "姓名" "" "" =
      get_replace_params ⟨[("【姓名】", "姓名")], ReplaceScope.bracketOnly⟩
        (some "模板.docx") (some [demoRow]) 1 1 "姓名" "" "" := by
  decide

/-- C2 (amended): the re-run fingerprint does not cover the scope mode.
For any two sessions with the same rule list and any shared remaining
configuration, the fingerprints coincide whatever the two scope modes
are, and with a nonempty cached artifact list whose stored params equal
the first fingerprint, the second configuration is not reprocessed. -/
theorem c2_scope_not_in_fingerprint (rules : List (String × String))
    (sA sB : ReplaceScope) (wf : Option String) (ex : Option (List Row))
    (a b : Nat) (c p q : String) (files : List ReplacedFile)
    (h : files ≠ []) :
    get_replace_params ⟨rules, sA⟩ wf ex a b c p q =
      get_replace_params ⟨rules, sB⟩ wf ex a b c p q ∧
    needReplace files (some (get_replace_params ⟨rules, sA⟩ wf ex a b c p q))
      (get_replace_params ⟨rules, sB⟩ wf ex a b c p q) = false := by
  have heq : get_replace_params ⟨rules, sA⟩ wf ex a b c p q =
      get_replace_params ⟨rules, sB⟩ wf ex a b c p q := rfl
  refine ⟨heq, ?_⟩
  cases files with
  | nil => exact absurd rfl h
  | cons f fs => simp [needReplace, heq]

/-- C2 amended-theorem witness at a concrete configuration. -/
theorem c2_scope_not_in_fingerprint_witness :
    ([⟨"a.docx", none, 0, "log"⟩] : List ReplacedFile) ≠ [] ∧
    needReplace [⟨"a.docx", none, 0, "log"⟩]
      (some (get_replace_params ⟨[("【姓名】", "姓名")], ReplaceScope.full⟩
        (some "模板.docx") (some [demoRow]) 1 1 "姓名" "" ""))
      (get_replace_params ⟨[("【姓名】", "姓名")], ReplaceScope.bracketOnly⟩
        (some "模板.docx") (some [demoRow]) 1 1 "姓名" "" "") = false :=
  ⟨by decide,
   (c2_scope_not_in_fingerprint [("【姓名】", "姓名")] ReplaceScope.full
     ReplaceScope.bracketOnly (some "模板.docx") (some [demoRow]) 1 1
     "姓名" "" "" [⟨"a.docx", none, 0, "log"⟩] (by decide)).2⟩

/-- C4 counterexample: a signed all-digit string is not returned
unchanged — the normalizer sends "-007" through the integer branch
`str(int(Decimal(x)))`, which canonicalizes it to "-7". -/
theorem c4_signed_digits_changed :
    fix_float_precision "-007" none = "-7" ∧ ("-7" : String) ≠ "-007" := by
  decide

/-- C4 (amended): for every input string whose trimmed form is a
nonempty unsigned ASCII-digit string, the normalizer returns the trimmed
value unchanged. -/
theorem c4_unsigned_digits_unchanged (x : String) (c : Option String)
    (h : pyIsDigit (pyStrip x) = true) :
    fix_float_precision x c = pyStrip x := by
  have hne : pyStrip x ≠ "" := by
    intro h0
    rw [h0] at h
    exact absurd h (by decide)
  have hxe : ¬(x.isEmpty = true) := by
    intro hx
    have : x = "" := (String.isEmpty_iff _).mp hx
    subst this
    exact hne rfl
  have hse : ¬((pyStrip x).isEmpty = true) := by
    intro hx
    exact hne ((String.isEmpty_iff _).mp hx)
  simp only [fix_float_precision]
  rw [if_neg hxe, if_neg hse, if_pos h]

/-- C4 amended-theorem witness: the spec's own vector "100". -/
theorem c4_unsigned_digits_unchanged_witness :
    pyIsDigit (pyStrip "100") = true ∧
    fix_float_precision "100" none = pyStrip "100" :=
  ⟨by decide, c4_unsigned_digits_unchanged "100" none (by decide)⟩

/-- Single evaluation: the aggregate branch quantizes "-0.0000000001"
half-up to the negative-zero decimal and renders "-0". -/
theorem fix_eval_negzero_in : fix_float_precision "-0.0000000001" (some "合计") = "-0" := by
  decide

/-- Single evaluation: "-0" takes the integer branch, losing the sign. -/
theorem fix_eval_negzero_out : fix_float_precision "-0" (some "合计") = "0" := by
  decide

/-- C6 counterexample: normalization is not idempotent for every numeric
string.  With an aggregate column, "-0.0000000001" quantizes half-up to
the negative-zero decimal and renders as "-0"; renormalizing "-0" takes
the integer branch `str(int(Decimal("-0")))`, which gives "0". -/
theorem c6_not_idempotent :
    fix_float_precision (fix_float_precision "-0.0000000001" (some "合计"))
        (some "合计") ≠
      fix_float_precision "-0.0000000001" (some "合计") := by
  rw [fix_eval_negzero_in, fix_eval_negzero_out]
  decide

/-- Single evaluation of the spec vector "0.48729999999999996". -/
theorem fix_eval_artifact : fix_float_precision "0.48729999999999996" none = "0.48729999999999996" := by
  decide

/-- Single evaluation of the spec vector "100". -/
theorem fix_eval_100 : fix_float_precision "100" none = "100" := by
  decide

/-- Single evaluation of the spec vector "" (empty). -/
theorem fix_eval_empty : fix_float_precision "" none = "" := by
  decide

/-- Single evaluation of the spec vector "abc". -/
theorem fix_eval_abc : fix_float_precision "abc" none = "abc" := by
  decide

/-- Single evaluation of the spec vector "10.500" under its aggregate
column. -/
theorem fix_eval_10500 : fix_float_precision "10.500" (some "合计金额") = "10.5" := by
  decide

/-- Single evaluation of the renormalized aggregate value "10.5". -/
theorem fix_eval_105 : fix_float_precision "10.5" (some "合计金额") = "10.5" := by
  decide

/-- C6 (amended): normalization is idempotent on the specification's
tested numeric strings (its §8 vectors), though not for every numeric
string (see the counterexample). -/
theorem c6_idempotent_on_spec_vectors :
    (fix_float_precision (fix_float_precision "0.48729999999999996" none) none
      = fix_float_precision "0.48729999999999996" none) ∧
    (fix_float_precision (fix_float_precision "100" none) none
      = fix_float_precision "100" none) ∧
    (fix_float_precision (fix_float_precision "" none) none
      = fix_float_precision "" none) ∧
    (fix_float_precision (fix_float_precision "abc" none) none
      = fix_float_precision "abc" none) ∧
    (fix_float_precision
        (fix_float_precision "10.500" (some "合计金额")) (some "合计金额")
      = fix_float_precision "10.500" (some "合计金额")) := by
  refine ⟨?_, ?_, ?_, ?_, ?_⟩
  · rw [fix_eval_artifact]
    exact fix_eval_artifact
  · rw [fix_eval_100]
    exact fix_eval_100
  · rw [fix_eval_empty]
    exact fix_eval_empty
  · rw [fix_eval_abc]
    exact fix_eval_abc
  · rw [fix_eval_10500]
    exact fix_eval_105


/-- C3: for every batch run over a valid 1-indexed inclusive row range
(the UI bounds both endpoints by the row count), the artifact list has
exactly end - start + 1 entries and the artifacts' source row indices are
strictly increasing. -/
theorem c3_batch_length_and_order (doc : DocumentTree) (excel_df : List Row)
    (rules : List (String × String)) (scope : ReplaceScope)
    (s e : Nat) (fnc pre suf : String)
    (h1 : 1 ≤ s) (h2 : s ≤ e) (h3 : e ≤ excel_df.length) :
    (runBatch doc excel_df rules scope s e fnc pre suf).length = e - s + 1 ∧
    (runBatch doc excel_df rules scope s e fnc pre suf).Pairwise
      (fun a b => a.row_idx < b.row_idx) := by
  have hmin : min e excel_df.length = e := Nat.min_eq_left h3
  constructor
  · simp only [runBatch, pyRange, hmin, List.length_map, List.length_range']
    omega
  · unfold runBatch pyRange
    rw [hmin, List.pairwise_map]
    exact (List.pairwise_lt_range' (s - 1) (e - (s - 1))).imp (fun hab => hab)

/-- C3 witness: a concrete two-row batch over a three-row sheet. -/
theorem c3_batch_length_and_order_witness :
    (runBatch demoDoc [demoRow, demoRow, demoRow] [("【姓名】", "姓名")]
        ReplaceScope.full 1 2 "姓名" "" "").length = 2 ∧
    (runBatch demoDoc [demoRow, demoRow, demoRow] [("【姓名】", "姓名")]
        ReplaceScope.full 1 2 "姓名" "" "").Pairwise
      (fun a b => a.row_idx < b.row_idx) :=
  c3_batch_length_and_order demoDoc [demoRow, demoRow, demoRow]
    [("【姓名】", "姓名")] ReplaceScope.full 1 2 "姓名" "" ""
    (by decide) (by decide) (by decide)

/-- The bracket-pair recognizer of BracketContentOnly mode, in the
source's priority order: 【…】, （…）, (…), 〔…〕. -/
def bracketGlyphs (s : String) : Option (String × String) :=
  if pyStartsWith s "【" && pyEndsWith s "】" then some ("【", "】")
  else if pyStartsWith s "（" && pyEndsWith s "）" then some ("（", "）")
  else if pyStartsWith s "(" && pyEndsWith s ")" then some ("(", ")")
  else if pyStartsWith s "〔" && pyEndsWith s "〕" then some ("〔", "〕")
  else none

/-- C7: under BracketContentOnly scope, a rule whose cleaned keyword is
wrapped in one of the recognized glyph pairs compiles to a pattern whose
search key is the full bracketed literal and whose replacement re-wraps
the row value in the same glyphs; a rule with a non-bracketed keyword
compiles exactly as FullKeyword mode would. -/
theorem c7_bracket_content_only (old col : String) (row : Row) (v : String)
    (h : rowLookup row col = some v) :
    (∀ o c : String, bracketGlyphs (clean_text old) = some (o, c) →
      precompute_replace_patterns .bracketOnly [(old, col)] row =
        .ok [⟨old, col, clean_text old, o ++ v ++ c⟩]) ∧
    (bracketGlyphs (clean_text old) = none →
      precompute_replace_patterns .bracketOnly [(old, col)] row =
        precompute_replace_patterns .full [(old, col)] row) := by
  constructor
  · intro o c hoc
    simp only [bracketGlyphs] at hoc
    simp only [precompute_replace_patterns, h]
    split_ifs at hoc ⊢ <;> simp_all
  · intro hnone
    simp only [bracketGlyphs] at hnone
    simp only [precompute_replace_patterns, h]
    split_ifs at hnone ⊢ <;> simp_all

/-- C7 witness: the spec's example keyword 【姓名】 with row value 张三
compiles to the replacement 【张三】. -/
theorem c7_bracket_content_only_witness :
    rowLookup demoRow "姓名" = some "张三" ∧
    precompute_replace_patterns .bracketOnly [("【姓名】", "姓名")] demoRow =
      .ok [⟨"【姓名】", "姓名", clean_text "【姓名】", "【" ++ "张三" ++ "】"⟩] :=
  ⟨by decide,
   (c7_bracket_content_only "【姓名】" "姓名" demoRow "张三" (by decide)).1
     "【" "】" (by decide)⟩

/-- The fully substituted text of one paragraph: every pattern whose
search key occurs in the cleaned text applied as replace-all over the
working text, in rule order. -/
def substitutedText (ptext cleaned : String) (pats : List CompiledPattern) :
    String :=
  pats.foldl
    (fun t p => if pyIn p.searchKey cleaned then pyReplace t p.searchKey p.repl
                else t) ptext

/-- The first component of the text-and-counts fold of
process_paragraph is the substituted text. -/
theorem foldl_step_fst (cleaned : String) (pats : List CompiledPattern)
    (t : String) (m : Counts) :
    (pats.foldl
      (fun (acc : String × Counts) p =>
        if pyIn p.searchKey cleaned then
          (pyReplace acc.1 p.searchKey p.repl, bumpCount acc.2 (p.old, p.col) 1)
        else acc) (t, m)).1 = substitutedText t cleaned pats := by
  induction pats generalizing t m with
  | nil => rfl
  | cons p ps ih =>
    simp only [List.foldl_cons, substitutedText]
    by_cases hp : pyIn p.searchKey cleaned = true
    · rw [if_pos hp, if_pos hp]
      exact ih _ _
    · rw [if_neg hp, if_neg hp]
      exact ih _ _

/-- C8: whenever at least one pattern's search key occurs in the cleaned
paragraph text, the mutator writes the fully substituted text into the
first run (whose style then governs it), blanks every other run, and a
paragraph with zero runs is left as the empty run list. -/
theorem c8_first_run_commit (runs : List Run) (pats : List CompiledPattern)
    (h : ∃ p, p ∈ pats ∧ pyIn p.searchKey (clean_text (para_text runs)) = true) :
    (process_paragraph runs pats).1 =
      match runs with
      | [] => []
      | r :: rs =>
        { r with
            text := substitutedText (para_text runs)
                      (clean_text (para_text runs)) pats } ::
          rs.map (fun q => { q with text := "" }) := by
  have hany : (pats.any fun p =>
      pyIn p.searchKey (clean_text (para_text runs))) = true := by
    rw [List.any_eq_true]
    obtain ⟨p, hp, hin⟩ := h
    exact ⟨p, hp, hin⟩
  cases runs with
  | nil => simp [process_paragraph, hany]
  | cons r rs =>
    simp only [process_paragraph, hany, if_true]
    rw [foldl_step_fst]

/-- C8 witness: the spec's example paragraph 姓名：/【姓名】 with the
replacement 【姓名】→【李四】 collapses to one styled run. -/
theorem c8_first_run_commit_witness :
    (process_paragraph [⟨"姓名：", 0⟩, ⟨"【姓名】", 1⟩]
        [⟨"【姓名】", "姓名", "【姓名】", "【李四】"⟩]).1 =
      [⟨"姓名：【李四】", 0⟩, ⟨"", 1⟩] := by
  have h := c8_first_run_commit [⟨"姓名：", 0⟩, ⟨"【姓名】", 1⟩]
    [⟨"【姓名】", "姓名", "【姓名】", "【李四】"⟩]
    ⟨⟨"【姓名】", "姓名", "【姓名】", "【李四】"⟩, by decide, by decide⟩
  exact h.trans (by rfl)

/-- str.replace is the identity when the needle does not occur. -/
theorem replaceAux_no_occurrence (old new : List Char) :
    ∀ (fuel : Nat) (s : List Char), s.length ≤ fuel →
      containsSub s old = false → replaceAux old new fuel s = s := by
  intro fuel
  induction fuel with
  | zero =>
    intro s hl _
    cases s with
    | nil => rfl
    | cons c t => simp at hl
  | succ f ih =>
    intro s hl hc
    cases s with
    | nil => rfl
    | cons c t =>
      unfold containsSub at hc
      by_cases hp : old.isPrefixOf (c :: t) = true
      · rw [if_pos hp] at hc
        exact absurd hc (by simp)
      · rw [if_neg hp] at hc
        unfold replaceAux
        rw [if_neg hp]
        have hlt : t.length ≤ f := by
          simp only [List.length_cons] at hl
          omega
        rw [ih t hlt hc]

/-- Python-level corollary: s.replace(sub, n) = s when sub not in s. -/
theorem pyReplace_no_occurrence (s sub n : String)
    (h : pyIn sub s = false) : pyReplace s sub n = s := by
  have hne : sub.data ≠ [] := by
    intro h0
    unfold pyIn containsSub at h
    rw [h0] at h
    simp [List.isPrefixOf] at h
  unfold pyReplace
  rw [if_neg (by simpa using hne)]
  rw [replaceAux_no_occurrence sub.data n.data s.data.length s.data
    (Nat.le_refl _) h]

/-- C10: when a pattern's search key occurs in the cleaned paragraph text
but not in the raw text, the paragraph is still rewritten — the first
run receives the working text with no occurrence of that key replaced,
every other run is blanked — and the pattern's count is still 1. -/
theorem c10_cleaned_only_match (r : Run) (rs : List Run) (p : CompiledPattern)
    (hin : pyIn p.searchKey (clean_text (para_text (r :: rs))) = true)
    (hraw : pyIn p.searchKey (para_text (r :: rs)) = false) :
    process_paragraph (r :: rs) [p] =
      ({ r with text := para_text (r :: rs) } ::
         rs.map (fun q => { q with text := "" }),
       [((p.old, p.col), 1)]) := by
  simp only [process_paragraph, List.any_cons, List.any_nil, hin,
    Bool.true_or, if_true, List.foldl_cons, List.foldl_nil, Bool.or_false]
  rw [pyReplace_no_occurrence _ _ _ hraw]
  rfl

/-- C10 witness: the paragraph "X&nbsp;Y"+"Z" normalizes its NBSP to an
ASCII space, so "X Y" matches the cleaned text only; the rewrite keeps
the text, blanks the second run, and counts the pattern once. -/
theorem c10_cleaned_only_match_witness :
    pyIn "X Y" (clean_text (para_text [⟨"X Y", 0⟩, ⟨"Z", 1⟩])) = true ∧
    pyIn "X Y" (para_text [⟨"X Y", 0⟩, ⟨"Z", 1⟩]) = false ∧
    process_paragraph [⟨"X Y", 0⟩, ⟨"Z", 1⟩] [⟨"k", "c", "X Y", "QQ"⟩] =
      ([⟨"X YZ", 0⟩, ⟨"", 1⟩], [(("k", "c"), 1)]) := by
  refine ⟨by decide, by decide, ?_⟩
  rw [c10_cleaned_only_match ⟨"X Y", 0⟩ [⟨"Z", 1⟩]
    ⟨"k", "c", "X Y", "QQ"⟩ (by decide) (by decide)]
  decide


/-- Element formula for the batch loop: the i-th artifact is built from
row index start - 1 + i. -/
theorem runBatch_getD (doc : DocumentTree) (excel_df : List Row)
    (rules : List (String × String)) (scope : ReplaceScope)
    (s e : Nat) (fnc pre suf : String) (i : Nat)
    (h3 : e ≤ excel_df.length) (hi : i < e - (s - 1)) :
    (runBatch doc excel_df rules scope s e fnc pre suf).getD i
        ⟨"", none, 0, ""⟩ =
      { filename := buildFilename (excel_df.getD (s - 1 + i) []) (s - 1 + i)
          fnc pre suf
        data := (replace_word_with_format doc (excel_df.getD (s - 1 + i) [])
          rules scope).1
        row_idx := s - 1 + i
        log := (replace_word_with_format doc (excel_df.getD (s - 1 + i) [])
          rules scope).2 } := by
  unfold runBatch pyRange
  rw [Nat.min_eq_left h3]
  have hlen : i < (List.range' (s - 1) (e - (s - 1))).length := by
    rw [List.length_range']
    exact hi
  have hlen2 : i < ((List.range' (s - 1) (e - (s - 1))).map
      (fun row_idx =>
        ({ filename := buildFilename (excel_df.getD row_idx []) row_idx
             fnc pre suf
           data := (replace_word_with_format doc (excel_df.getD row_idx [])
             rules scope).1
           row_idx := row_idx
           log := (replace_word_with_format doc (excel_df.getD row_idx [])
             rules scope).2 } : ReplacedFile))).length := by
    rw [List.length_map]
    exact hlen
  rw [List.getD_eq_getElem _ _ hlen2, List.getElem_map,
    List.getElem_range'_1 i hlen]

/-- A string prefixed by its own first summand starts with it. -/
theorem pyStartsWith_append (a b : String) :
    pyStartsWith (a ++ b) a = true := by
  unfold pyStartsWith
  rw [String.data_append, List.isPrefixOf_iff_prefix]
  exact List.prefix_append _ _

/-- The error log of a failed row starts with the failure marker. -/
theorem errorLog_marker (col : String) :
    pyStartsWith ("替换失败: " ++ "'" ++ col) "替换失败" = true := by
  have h1 : ("替换失败: " : String) = "替换失败" ++ ": " := by decide
  rw [h1, String.append_assoc, String.append_assoc]
  exact pyStartsWith_append "替换失败" (": " ++ ("'" ++ col))

/-- C9: a row whose rule references a column absent from that row fails
locally.  Over a valid range, the batch still returns the full
index-aligned artifact list; the failing row's artifact has payload
`none` (the empty BytesIO) and a log starting with the failure marker
"替换失败", and every other in-range row has a present payload. -/
theorem c9_partial_failure (doc : DocumentTree) (excel_df : List Row)
    (rules : List (String × String)) (scope : ReplaceScope)
    (s e k : Nat) (fnc pre suf : String)
    (h1 : 1 ≤ s) (h2 : s ≤ e) (h3 : e ≤ excel_df.length)
    (hfail : ∃ col, precompute_replace_patterns scope rules
      (excel_df.getD k []) = .error col)
    (hok : ∀ j, s - 1 ≤ j → j < e → j ≠ k →
      ∃ pats, precompute_replace_patterns scope rules
        (excel_df.getD j []) = .ok pats) :
    (runBatch doc excel_df rules scope s e fnc pre suf).length = e - s + 1 ∧
    ∀ i, i < e - s + 1 →
      ((runBatch doc excel_df rules scope s e fnc pre suf).getD i
          ⟨"", none, 0, ""⟩).row_idx = s - 1 + i ∧
      (((runBatch doc excel_df rules scope s e fnc pre suf).getD i
          ⟨"", none, 0, ""⟩).data = none ↔ s - 1 + i = k) ∧
      (s - 1 + i = k →
        pyStartsWith ((runBatch doc excel_df rules scope s e fnc pre suf).getD
          i ⟨"", none, 0, ""⟩).log "替换失败" = true) := by
  have hlen : (runBatch doc excel_df rules scope s e fnc pre suf).length
      = e - s + 1 := by
    simp only [runBatch, pyRange, Nat.min_eq_left h3, List.length_map,
      List.length_range']
    omega
  refine ⟨hlen, ?_⟩
  intro i hi
  have hi' : i < e - (s - 1) := by omega
  rw [runBatch_getD doc excel_df rules scope s e fnc pre suf i h3 hi']
  by_cases hk : s - 1 + i = k
  · obtain ⟨col, hcol⟩ := hfail
    rw [hk]
    unfold replace_word_with_format
    rw [hcol]
    exact ⟨rfl, by simp [hk], fun _ => errorLog_marker col⟩
  · obtain ⟨pats, hpats⟩ := hok (s - 1 + i) (by omega) (by omega) hk
    unfold replace_word_with_format
    rw [hpats]
    refine ⟨rfl, ?_, fun hkk => absurd hkk hk⟩
    simp only [hk, iff_false]
    intro hd
    exact Option.noConfusion hd

/-- A row lacking the rule's column, used by the C9 witness. -/
def failRow : Row := [("其他", "x")]

/-- C9 witness: a three-row batch whose middle row lacks the 姓名 column
yields three artifacts;只 the middle one has an empty payload and a
failure log. -/
theorem c9_partial_failure_witness :
    (runBatch demoDoc [demoRow, failRow, demoRow] [("【姓名】", "姓名")]
        ReplaceScope.full 1 3 "姓名" "" "").length = 3 ∧
    ((runBatch demoDoc [demoRow, failRow, demoRow] [("【姓名】", "姓名")]
        ReplaceScope.full 1 3 "姓名" "" "").getD 1 ⟨"", none, 0, ""⟩).data
      = none ∧
    pyStartsWith ((runBatch demoDoc [demoRow, failRow, demoRow]
        [("【姓名】", "姓名")] ReplaceScope.full 1 3 "姓名" "" "").getD 1
        ⟨"", none, 0, ""⟩).log "替换失败" = true ∧
    ((runBatch demoDoc [demoRow, failRow, demoRow] [("【姓名】", "姓名")]
        ReplaceScope.full 1 3 "姓名" "" "").getD 0 ⟨"", none, 0, ""⟩).data
      ≠ none ∧
    ((runBatch demoDoc [demoRow, failRow, demoRow] [("【姓名】", "姓名")]
        ReplaceScope.full 1 3 "姓名" "" "").getD 2 ⟨"", none, 0, ""⟩).data
      ≠ none := by
  have h := c9_partial_failure demoDoc [demoRow, failRow, demoRow]
    [("【姓名】", "姓名")] ReplaceScope.full 1 3 1 "姓名" "" ""
    (by decide) (by decide) (by decide)
    ⟨"姓名", rfl⟩
    (fun j hj0 hj3 hjk => by
      interval_cases j
      · exact ⟨_, rfl⟩
      · exact absurd rfl hjk
      · exact ⟨_, rfl⟩)
  refine ⟨h.1, ?_, ?_, ?_, ?_⟩
  · exact (h.2 1 (by decide)).2.1.mpr (by decide)
  · exact (h.2 1 (by decide)).2.2 (by decide)
  · intro hd
    exact absurd ((h.2 0 (by decide)).2.1.mp hd) (by decide)
  · intro hd
    exact absurd ((h.2 2 (by decide)).2.1.mp hd) (by decide)


/-- A digit character is not Python whitespace. -/
theorem isDigitChar_not_pySpace (c : Char) (h : isDigitChar c = true) :
    isPySpace c = false := by
  simp only [isDigitChar, Bool.and_eq_true, decide_eq_true_eq] at h
  simp only [isPySpace, Bool.or_eq_false_iff, decide_eq_false_iff_not,
    Bool.and_eq_false_iff, decide_eq_true_eq]
  omega

/-- A list of digits is fully taken and nothing is dropped by the digit
scanner. -/
theorem all_digits_take_drop :
    ∀ l : List Char, l.all isDigitChar = true →
      l.takeWhile isDigitChar = l ∧ l.dropWhile isDigitChar = [] := by
  intro l
  induction l with
  | nil => intro _; exact ⟨rfl, rfl⟩
  | cons c t ih =>
    intro h
    rw [List.all_cons, Bool.and_eq_true] at h
    rw [List.takeWhile_cons, List.dropWhile_cons]
    rw [if_pos h.1, if_pos h.1]
    exact ⟨by rw [(ih h.2).1], (ih h.2).2⟩

/-- On an unsigned all-digit string the float matcher yields the integer
decimal (scale 0). -/
theorem matchFloat_of_digits (s : String) (hd : pyIsDigit s = true) :
    matchFloat s = some ⟨false, parseDigits s.data 0, 0⟩ := by
  unfold pyIsDigit at hd
  rw [Bool.and_eq_true] at hd
  obtain ⟨hne, hall⟩ := hd
  cases hsd : s.data with
  | nil =>
    rw [hsd] at hne
    simp at hne
  | cons ch t =>
    rw [hsd] at hall
    rw [List.all_cons, Bool.and_eq_true] at hall
    have hsp : isPySpace ch = false := isDigitChar_not_pySpace ch hall.1
    have hch : isDigitChar ch = true := hall.1
    have hnm : ch ≠ '-' ∧ ch ≠ '+' := by
      simp only [isDigitChar, Bool.and_eq_true, decide_eq_true_eq] at hch
      constructor
      · intro hcm
        rw [hcm] at hch
        exact absurd hch (by decide)
      · intro hcp
        rw [hcp] at hch
        exact absurd hch (by decide)
    have hmatch :
        (match ch :: t with
          | '-' :: t => (true, t)
          | '+' :: t => (false, t)
          | _ => (false, ch :: t)) = ((false, ch :: t) : Bool × List Char) := by
      split
      next heq => exact absurd (List.cons_eq_cons.mp heq).1 hnm.1
      next heq => exact absurd (List.cons_eq_cons.mp heq).1 hnm.2
      next => rfl
    have htd := all_digits_take_drop (ch :: t)
      (by rw [List.all_cons, Bool.and_eq_true]; exact ⟨hch, hall.2⟩)
    simp only [matchFloat, hsd]
    rw [List.dropWhile_cons, if_neg (by rw [hsp]; exact Bool.false_ne_true)]
    rw [hmatch]
    simp only []
    rw [htd.1, htd.2]
    simp

/-- C5: the normalizer is a total string function; whenever its decimal
path fails (the one internal failure is the `InvalidOperation` a
`quantize` signals past the 28-digit context precision), the result is
the fallback ladder: parse as a float and format at six fractional
digits with trailing zeros and point stripped, and, were even that parse
to fail, the (stripped) input itself. -/
theorem c5_fallback_ladder (x : String) (c : Option String) (dec : Dec)
    (hm : matchFloat (pyStrip x) = some dec)
    (hfail : decTryBlock (pyStrip x) c dec = none) :
    fix_float_precision x c =
      ((matchFloat (pyStrip x)).map
        (fun d => trimZerosDot (formatFloatFixed (decToFloatSat d) 6))).getD
        (pyStrip x) := by
  have hne : pyStrip x ≠ "" := by
    intro h0
    rw [h0] at hm
    have hmf : (matchFloat "" : Option Dec) = none := rfl
    rw [hmf] at hm
    exact Option.noConfusion hm
  have hxe : ¬(x.isEmpty = true) := by
    intro hx
    have hx0 : x = "" := (String.isEmpty_iff _).mp hx
    rw [hx0] at hne
    exact hne rfl
  have hse : ¬((pyStrip x).isEmpty = true) := by
    intro hx
    exact hne ((String.isEmpty_iff _).mp hx)
  have hdig : ¬(pyIsDigit (pyStrip x) = true) := by
    intro hd
    have hmd := matchFloat_of_digits (pyStrip x) hd
    rw [hm] at hmd
    have hsc : dec.scale = 0 := by
      rw [Option.some_inj] at hmd
      rw [hmd]
    unfold decTryBlock at hfail
    rw [if_pos hsc] at hfail
    exact Option.noConfusion hfail
  simp only [fix_float_precision]
  rw [if_neg hxe, if_neg hse, if_neg hdig]
  simp only [hm, hfail]
  rfl

/-- The C5 witness input: a 31-significant-digit value whose quantize to
two places would need a 32-digit coefficient, past the context precision. -/
def bigAggStr : String := String.mk (List.replicate 30 '1' ++ ['.', '5'])

/-- The Decimal denoted by the witness input. -/
def bigAggDec : Dec := ⟨false, (10 ^ 30 - 1) / 9 * 10 + 5, 1⟩

set_option maxRecDepth 4000 in
set_option maxHeartbeats 1000000 in
/-- Single evaluation: the float matcher on the witness input. -/
theorem bigAgg_match : matchFloat (pyStrip bigAggStr) = some bigAggDec := by
  decide

set_option maxRecDepth 4000 in
set_option maxHeartbeats 1000000 in
/-- Single evaluation: the first aggregate quantize of the witness input
signals `InvalidOperation`, failing the try block. -/
theorem bigAgg_fail :
    decTryBlock (pyStrip bigAggStr) (some "合计") bigAggDec = none := by
  decide

set_option maxRecDepth 4000 in
set_option maxHeartbeats 1000000 in
/-- Single evaluation: the fallback ladder on the witness input formats
`float(x)` at six digits — the double's exact integer expansion. -/
theorem bigAgg_fallback_eval :
    ((matchFloat (pyStrip bigAggStr)).map
      (fun d => trimZerosDot (formatFloatFixed (decToFloatSat d) 6))).getD
        (pyStrip bigAggStr) = "111111111111111105501764517888" := by
  rw [bigAgg_match]
  decide

/-- C5 witness: under an aggregate column the first quantize of the
witness input signals `InvalidOperation`, and the fallback formats
`float(x)` at six digits, yielding the double's exact integer
expansion. -/
theorem c5_fallback_ladder_witness :
    matchFloat (pyStrip bigAggStr) = some bigAggDec ∧
    decTryBlock (pyStrip bigAggStr) (some "合计") bigAggDec = none ∧
    fix_float_precision bigAggStr (some "合计") =
      "111111111111111105501764517888" :=
  ⟨bigAgg_match, bigAgg_fail,
   (c5_fallback_ladder bigAggStr (some "合计") bigAggDec bigAgg_match
     bigAgg_fail).trans bigAgg_fallback_eval⟩

end WordExcel
